import Mathlib

/-!
Shallow embedding of `src/seoul_sales_dashboard.py`, a Streamlit dashboard
that loads a CSV of Seoul commercial-district sales estimates, classifies
each row into a borough via first-match keyword lookup, coerces numeric
columns, filters by borough/quarter and computes aggregate summaries.

Pandas/Python cell values are modelled by `Cell`; sales amounts are modelled
as rationals (pandas float arithmetic, taken exactly); tables as lists of
records or lists of cell lists.  Python dicts preserve insertion order, so
`KEYWORD_TO_DISTRICT` is an ordered association list (its 90 keys are
pairwise distinct in the source literal).
-/

namespace SeoulDash

/-- A pandas cell value: a string, a number, or a missing value (NaN).
Models the dynamically typed cells the script receives from `pd.read_csv`. -/
inductive Cell where
  | str (s : String)
  | num (q : ℚ)
  | nan
deriving DecidableEq

/-- Is `kw` a prefix of the second character list? -/
def isPrefixChars : List Char → List Char → Bool
  | [], _ => true
  | _ :: _, [] => false
  | a :: as, b :: bs => a == b && isPrefixChars as bs

/-- Does the second character list contain `kw` as a contiguous run? -/
def hasInfixChars (kw : List Char) : List Char → Bool
  | [] => kw.isEmpty
  | b :: bs => isPrefixChars kw (b :: bs) || hasInfixChars kw bs

/-- Python's `kw in name` on strings: substring (contiguous infix) test on
the sequence of code points, case-sensitive, no normalization. -/
def isSubstr (kw s : String) : Bool := hasInfixChars kw.data s.data

/-- Python's `str(x)` conversion applied to a cell before matching
(`match_district` does `kw in str(name)`).  The exact rendering of numeric
and missing cells is irrelevant to the claims; what matters is that every
cell has a string form. -/
def cellStr : Cell → String
  | .str s => s
  | .num q => toString q
  | .nan => "nan"

/-- The `KEYWORD_TO_DISTRICT` from the source, lines 15-41, in the literal's
insertion order (Python dict order). -/
def KEYWORD_TO_DISTRICT : List (String × String) := [
  ("종로", "종로구"), ("혜화", "종로구"), ("창신", "종로구"), ("인사동", "종로구"),
  ("명동", "중구"), ("남대문", "중구"), ("북창동", "중구"), ("을지로", "중구"),
  ("이태원", "용산구"), ("한남", "용산구"), ("보광", "용산구"), ("용산", "용산구"),
  ("마장", "성동구"), ("성수", "성동구"), ("행당", "성동구"),
  ("건대", "광진구"), ("준양", "광진구"), ("화양", "광진구"), ("자양", "광진구"),
  ("장안", "동대문구"), ("청량리", "동대문구"), ("제기", "동대문구"),
  ("면목", "중랑구"), ("상봉", "중랑구"), ("중화", "중랑구"),
  ("돈암", "성북구"), ("안암", "성북구"), ("종암", "성북구"),
  ("수유", "강북구"), ("미아", "강북구"), ("번동", "강북구"),
  ("쌍문", "도봉구"), ("창동", "도봉구"), ("방학", "도봉구"),
  ("상계", "노원구"), ("중계", "노원구"), ("하계", "노원구"),
  ("연서", "은평구"), ("응암", "은평구"), ("불광", "은평구"),
  ("이대", "서대문구"), ("신촌", "서대문구"), ("연희", "서대문구"),
  ("홍대", "마포구"), ("합정", "마포구"), ("망원", "마포구"), ("공덕", "마포구"),
  ("목동", "양천구"), ("신정", "양천구"), ("신월", "양천구"),
  ("화곡", "강서구"), ("발산", "강서구"), ("마곡", "강서구"),
  ("구로", "구로구"), ("개봉", "구로구"), ("오류", "구로구"), ("신도림", "구로구"),
  ("가산", "금천구"), ("시흥", "금천구"), ("독산", "금천구"),
  ("영등포", "영등포구"), ("당산", "영등포구"), ("문래", "영등포구"), ("여의도", "영등포구"),
  ("노량진", "동작구"), ("상도", "동작구"), ("사당", "동작구"), ("흑석", "동작구"),
  ("신림", "관악구"), ("봉천", "관악구"), ("남현", "관악구"),
  ("강남역", "서초구"), ("교대", "서초구"), ("방배", "서초구"), ("양재", "서초구"),
  ("압구정", "강남구"), ("청담", "강남구"), ("삼성동", "강남구"), ("역삼", "강남구"),
  ("논현", "강남구"), ("신사", "강남구"), ("가로수길", "강남구"),
  ("잠실", "송파구"), ("가락", "송파구"), ("문정", "송파구"), ("석촌", "송파구"),
  ("천호", "강동구"), ("명일", "강동구"), ("암사", "강동구"), ("성내", "강동구")]

/-- The sentinel label returned by `match_district` when no keyword matches. -/
def SENTINEL : String := "기타/미분류"

/-- The `match_district` (source lines 52-55) on an already-converted string:
scan the keyword table in order, return the district of the first keyword
that is a substring of the name; otherwise the sentinel. -/
def matchDistrictStr (s : String) : String :=
  match KEYWORD_TO_DISTRICT.find? (fun p => isSubstr p.1 s) with
  | some p => p.2
  | none => SENTINEL

/-- The `match_district(name)` as called on a raw cell: the source applies
`str(name)` before the substring test, so it is total over cells. -/
def match_district (c : Cell) : String := matchDistrictStr (cellStr c)

/-- Digit run to a natural number (base 10). -/
def natOfDigits (l : List Char) : Nat := l.foldl (fun a c => a * 10 + (c.toNat - 48)) 0

/-- Unsigned decimal number: digit run, optionally followed by a dot and a
fractional digit run (at least one digit overall). -/
def parseUnsigned (l : List Char) : Option ℚ :=
  let ip := l.takeWhile (fun c => c.isDigit)
  let rest := l.dropWhile (fun c => c.isDigit)
  match rest with
  | [] => if ip.isEmpty then none else some ((natOfDigits ip : ℚ))
  | '.' :: frac =>
      if frac.all (fun c => c.isDigit) && (!ip.isEmpty || !frac.isEmpty) then
        some ((natOfDigits ip : ℚ) + (natOfDigits frac : ℚ) / ((10 : ℚ) ^ frac.length))
      else none
  | _ => none

/-- Numeric parsing of a string cell, modelling the external
`pd.to_numeric` grammar on the values this data contains: optional sign,
then an unsigned decimal.  Anything else fails to parse. -/
def parseRat (s : String) : Option ℚ :=
  match s.data with
  | [] => none
  | '-' :: rest => (parseUnsigned rest).map (fun q => -q)
  | '+' :: rest => parseUnsigned rest
  | _ => parseUnsigned s.data

/-- The `pd.to_numeric(x, errors='coerce')` on one cell: numbers pass through,
missing values and unparsable strings become NaN (`none`). -/
def parseNum : Cell → Option ℚ
  | .num q => some q
  | .nan => none
  | .str s => parseRat s

/-- The `pd.to_numeric(..., errors='coerce').fillna(0)` on one cell. -/
def coerceNum (c : Cell) : ℚ := (parseNum c).getD 0

/-- Column-name predicate of source line 60:
`df.columns.str.contains('매출_금액|매출_건수')`. -/
def isNumericCol (name : String) : Bool :=
  isSubstr "매출_금액" name || isSubstr "매출_건수" name

/-- The numeric-coercion pass (source lines 60-62) on one row of a generic
table: the cell of every column whose name matches the pattern is coerced,
all other cells are untouched. -/
def processRow (colNames : List String) (cells : List Cell) : List Cell :=
  List.zipWith (fun n c => if isNumericCol n then Cell.num (coerceNum c) else c)
    colNames cells

/-- The numeric-coercion pass on a whole table; rows are mapped, never
dropped. -/
def processTable (colNames : List String) (rows : List (List Cell)) : List (List Cell) :=
  rows.map (processRow colNames)

/-- One processed row of the loaded table, with the logical columns the
script uses: area name (raw cell), quarter code, business-category name,
monthly sales amount/count, the per-age-bracket sales amounts in column
order, and the two gender sales amounts. -/
structure SalesRecord where
  areaName : Cell
  quarter : Int
  category : String
  monthlyAmount : ℚ
  monthlyCount : ℚ
  ages : List ℚ
  maleAmount : ℚ
  femaleAmount : ℚ
deriving DecidableEq

/-- The borough column `자치구` assigned on source line 57:
`df['상권_코드_명'].apply(match_district)`. -/
def district (r : SalesRecord) : String := match_district r.areaName

/-- One raw CSV row before the numeric-coercion pass. -/
structure RawRecord where
  areaName : Cell
  quarter : Int
  category : String
  monthlyAmountRaw : Cell
  monthlyCountRaw : Cell
  agesRaw : List Cell
  maleRaw : Cell
  femaleRaw : Cell
deriving DecidableEq

/-- Preprocessing of one raw row: numeric sales columns coerced with
unparsable cells becoming 0; the row is kept whole. -/
def processRecord (r : RawRecord) : SalesRecord :=
  { areaName := r.areaName
    quarter := r.quarter
    category := r.category
    monthlyAmount := coerceNum r.monthlyAmountRaw
    monthlyCount := coerceNum r.monthlyCountRaw
    ages := r.agesRaw.map coerceNum
    maleAmount := coerceNum r.maleRaw
    femaleAmount := coerceNum r.femaleRaw }

/-- The `load_data` (source lines 43-64): when the file is missing, `st.error`
is shown and an empty table is returned; otherwise the CSV rows are
preprocessed.  First component: whether the error was shown. -/
def load_data (fileExists : Bool) (csv : List RawRecord) : Bool × List SalesRecord :=
  if fileExists then (false, csv.map processRecord) else (true, [])

/-- The filtered view `sub_df` (source lines 83-86): rows of the chosen
borough, and of the chosen quarter when one is selected (`none` models
the "전체" option). -/
def filterView (rows : List SalesRecord) (dist : String) (q : Option Int) : List SalesRecord :=
  rows.filter (fun r =>
    district r == dist && match q with | none => true | some v => r.quarter == v)

/-- Pointwise sum of two numeric columns-vectors. -/
def addVec (a b : List ℚ) : List ℚ := List.zipWith (· + ·) a b

/-- The `sub_df[age_cols].sum()` (source line 96): per-column sums of the `n`
age-bracket sales columns across the view. -/
def ageTotals (n : Nat) (view : List SalesRecord) : List ℚ :=
  view.foldl (fun acc r => addVec acc r.ages) (List.replicate n 0)

/-- Pandas `Series.idxmax`: position and value of the first maximum.
For `x :: xs`: if the tail's maximum strictly exceeds `x` the answer lies
in the tail, otherwise (ties included) it is `x` at position 0. -/
def idxmaxPair? : List ℚ → Option (Nat × ℚ)
  | [] => none
  | x :: xs =>
    match idxmaxPair? xs with
    | none => some (0, x)
    | some (j, m) => if x < m then some (j + 1, m) else some (0, x)

/-- Position of the first maximum (`idxmax`), `none` on the empty series. -/
def idxmax (l : List ℚ) : Option Nat := (idxmaxPair? l).map Prod.fst

/-- Index of the dominant age bracket: `age_totals.idxmax()` (line 97). -/
def mainAgeIdx (n : Nat) (view : List SalesRecord) : Option Nat :=
  idxmax (ageTotals n view)

/-- The `age_cols` (source line 95): the columns whose names contain both
`연령대` and `매출_금액`, in column iteration order. -/
def ageColsOf (colNames : List String) : List String :=
  colNames.filter (fun c => isSubstr "연령대" c && isSubstr "매출_금액" c)

/-- The display label of an age column: `c.split('_')[1] + "대"` (line 97). -/
def ageLabel (col : String) : String := ((col.splitOn "_").getD 1 "") ++ "대"

/-- The `main_age_group` (source line 97): label of the first age column whose
column sum over the view is maximal. -/
def mainAgeGroup (ageCols : List String) (view : List SalesRecord) : Option String :=
  (mainAgeIdx ageCols.length view).map (fun i => ageLabel (ageCols.getD i ""))

/-- Unique values in first-occurrence order (pandas `unique` / distinct
group keys before sorting). -/
def dedupFirst {α : Type} [DecidableEq α] : List α → List α
  | [] => []
  | c :: cs => c :: dedupFirst (cs.filter (fun d => d != c))
termination_by l => l.length
decreasing_by
  simp only [List.length_cons]
  exact Nat.lt_succ_of_le (List.length_filter_le _ _)

/-- Code-point lexicographic order on character lists (Python `sorted` on
strings). -/
def charListLt : List Char → List Char → Bool
  | [], [] => false
  | [], _ :: _ => true
  | _ :: _, [] => false
  | a :: as, b :: bs => if a < b then true else if b < a then false else charListLt as bs

/-- Lexicographic order on strings. -/
def keyLt (a b : String) : Bool := charListLt a.data b.data

/-- Insertion into a lexicographically ascending list of strings. -/
def insertKey (c : String) : List String → List String
  | [] => [c]
  | d :: ds => if keyLt c d then c :: d :: ds else d :: insertKey c ds

/-- Ascending lexicographic sort (Python `sorted`, pandas sorted group
keys). -/
def sortKeys (l : List String) : List String := l.foldr insertKey []

/-- Insertion into a list of (category, mean) pairs held in descending
order of the mean. -/
def insertDesc (p : String × ℚ) : List (String × ℚ) → List (String × ℚ)
  | [] => [p]
  | q :: qs => if q.2 < p.2 then p :: q :: qs else q :: insertDesc p qs

/-- Descending sort by value (`sort_values(ascending=False)`). -/
def sortDesc (l : List (String × ℚ)) : List (String × ℚ) := l.foldr insertDesc []

/-- Descending insertion for quarter codes. -/
def insertIntDesc (x : Int) : List Int → List Int
  | [] => [x]
  | y :: ys => if y < x then x :: y :: ys else y :: insertIntDesc x ys

/-- The `sorted(..., reverse=True)` on quarter codes (source line 78). -/
def sortIntsDesc (l : List Int) : List Int := l.foldr insertIntDesc []

/-- The rows of one business-category group of the view. -/
def groupRows (view : List SalesRecord) (c : String) : List SalesRecord :=
  view.filter (fun r => r.category == c)

/-- The `groupby('서비스_업종_코드_명')['당월_매출_금액'].mean()` for one group. -/
def groupMean (view : List SalesRecord) (c : String) : ℚ :=
  ((groupRows view c).map (fun r => r.monthlyAmount)).sum / ((groupRows view c).length : ℚ)

/-- The `industry_rank` (source line 100): group the view by category name,
take each group's mean monthly sales amount (group keys sorted, as pandas
produces them), and sort by value in descending order. -/
def industry_rank (view : List SalesRecord) : List (String × ℚ) :=
  sortDesc ((sortKeys (dedupFirst (view.map (fun r => r.category)))).map
    (fun c => (c, groupMean view c)))

/-- The `sub_df['당월_매출_금액'].sum()` (source line 105). -/
def totalSales (view : List SalesRecord) : ℚ := (view.map (fun r => r.monthlyAmount)).sum

/-- The `sub_df['남성_매출_금액'].sum()` (source line 128). -/
def maleTotal (view : List SalesRecord) : ℚ := (view.map (fun r => r.maleAmount)).sum

/-- The `sub_df['여성_매출_금액'].sum()` (source line 128). -/
def femaleTotal (view : List SalesRecord) : ℚ := (view.map (fun r => r.femaleAmount)).sum

/-- The derived scalars of one summary block (source lines 91-158). -/
structure AggregateSummary where
  total : ℚ
  ageIdx : Nat
  topCategory : String × ℚ
  ranking : List (String × ℚ)
  maleSales : ℚ
  femaleSales : ℚ
deriving DecidableEq

/-- The aggregation block over a view, with its two fallible steps surfaced
as `Option`: `idxmax` fails on an empty series, `industry_rank.index[0]`
fails on an empty ranking. -/
def summarize (n : Nat) (view : List SalesRecord) : Option AggregateSummary :=
  match mainAgeIdx n view, (industry_rank view).head? with
  | some i, some top =>
      some ⟨totalSales view, i, top, industry_rank view, maleTotal view, femaleTotal view⟩
  | _, _ => none

/-- Outcome of rendering one borough/quarter selection: the empty-view
warning (line 89), the summary block, or a crash of the aggregation block. -/
inductive RenderResult where
  | warning
  | summary (s : AggregateSummary)
  | failure
deriving DecidableEq

/-- Source lines 88-158: warn and stop on an empty view, otherwise run the
aggregation block. -/
def renderSelection (n : Nat) (rows : List SalesRecord) (dist : String) (q : Option Int) :
    RenderResult :=
  let view := filterView rows dist q
  if view.isEmpty then RenderResult.warning
  else
    match summarize n view with
    | some s => RenderResult.summary s
    | none => RenderResult.failure

/-- The borough selector's options (source line 75): the sorted distinct
borough labels with the sentinel removed. -/
def districtsList (rows : List SalesRecord) : List String :=
  sortKeys ((dedupFirst (rows.map district)).filter (fun d => d != SENTINEL))

/-- The quarter selector's options (source lines 78-80): "전체" (`none`)
plus the distinct quarter codes in descending order. -/
def quarterOptions (rows : List SalesRecord) : List (Option Int) :=
  none :: (sortIntsDesc (dedupFirst (rows.map (fun r => r.quarter)))).map some

/-- The whole app for one selection (source lines 69-158): load, then skip
all display when the table is empty, else render the selection.  First
component: whether the missing-file error was shown. -/
def appView (fileExists : Bool) (csv : List RawRecord) (n : Nat) (dist : String)
    (q : Option Int) : Bool × Option RenderResult :=
  let ld := load_data fileExists csv
  (ld.1, if ld.2.isEmpty then none else some (renderSelection n ld.2 dist q))

/-- The `List.find?` returns the marked element when everything before it fails
the predicate and it satisfies the predicate. -/
theorem find_append_first {α : Type} (l₁ l₂ : List α) (p : α → Bool) (a : α)
    (ha : p a = true) (h : ∀ x ∈ l₁, p x = false) :
    (l₁ ++ a :: l₂).find? p = some a := by
  induction l₁ with
  | nil => simp [List.find?_cons_of_pos, ha]
  | cons y ys ih =>
      have hy : p y = false := h y (List.mem_cons_self y ys)
      simpa [List.find?_cons_of_neg, hy] using
        ih (fun x hx => h x (List.mem_cons_of_mem y hx))

end SeoulDash

namespace SeoulDash

/-- Unfolding lemma for `sortDesc`. -/
theorem sortDesc_cons (q : String × ℚ) (qs : List (String × ℚ)) :
    sortDesc (q :: qs) = insertDesc q (sortDesc qs) := rfl

/-- Membership in an `insertDesc` result. -/
theorem mem_insertDesc (p x : String × ℚ) (l : List (String × ℚ)) :
    x ∈ insertDesc p l ↔ x = p ∨ x ∈ l := by
  induction l with
  | nil => simp [insertDesc]
  | cons q qs ih =>
      by_cases hc : q.2 < p.2
      · simp only [insertDesc, if_pos hc, List.mem_cons]
      · simp only [insertDesc, if_neg hc, List.mem_cons, ih]
        tauto

/-- The `insertDesc` preserves the descending-by-value invariant. -/
theorem sorted_insertDesc (p : String × ℚ) (l : List (String × ℚ))
    (h : List.Pairwise (fun a b => b.2 ≤ a.2) l) :
    List.Pairwise (fun a b => b.2 ≤ a.2) (insertDesc p l) := by
  induction l with
  | nil => simp [insertDesc]
  | cons q qs ih =>
      rcases List.pairwise_cons.mp h with ⟨hq, hqs⟩
      by_cases hc : q.2 < p.2
      · simp only [insertDesc, if_pos hc]
        refine List.pairwise_cons.mpr ⟨?_, h⟩
        intro b hb
        rcases List.mem_cons.mp hb with rfl | hb'
        · exact le_of_lt hc
        · exact le_trans (hq b hb') (le_of_lt hc)
      · simp only [insertDesc, if_neg hc]
        refine List.pairwise_cons.mpr ⟨?_, ih hqs⟩
        intro b hb
        rcases (mem_insertDesc p b qs).mp hb with rfl | hb'
        · exact not_lt.mp hc
        · exact hq b hb'

/-- The `insertDesc` adds one element. -/
theorem length_insertDesc (p : String × ℚ) (l : List (String × ℚ)) :
    (insertDesc p l).length = l.length + 1 := by
  induction l with
  | nil => simp [insertDesc]
  | cons q qs ih =>
      by_cases hc : q.2 < p.2
      · simp [insertDesc, if_pos hc]
      · simp [insertDesc, if_neg hc, ih]

/-- The `sortDesc` permutes membership. -/
theorem mem_sortDesc (x : String × ℚ) (l : List (String × ℚ)) :
    x ∈ sortDesc l ↔ x ∈ l := by
  induction l with
  | nil => simp [sortDesc]
  | cons q qs ih => simp [sortDesc_cons, mem_insertDesc, ih]

/-- The `sortDesc` output is descending by value. -/
theorem sorted_sortDesc (l : List (String × ℚ)) :
    List.Pairwise (fun a b => b.2 ≤ a.2) (sortDesc l) := by
  induction l with
  | nil => simp [sortDesc]
  | cons q qs ih => exact sorted_insertDesc q (sortDesc qs) ih

/-- The `sortDesc` preserves length. -/
theorem length_sortDesc (l : List (String × ℚ)) :
    (sortDesc l).length = l.length := by
  induction l with
  | nil => simp [sortDesc]
  | cons q qs ih => simp [sortDesc_cons, length_insertDesc, ih]

/-- Unfolding lemma for `sortKeys`. -/
theorem sortKeys_cons (c : String) (cs : List String) :
    sortKeys (c :: cs) = insertKey c (sortKeys cs) := rfl

/-- Membership in an `insertKey` result. -/
theorem mem_insertKey (c x : String) (l : List String) :
    x ∈ insertKey c l ↔ x = c ∨ x ∈ l := by
  induction l with
  | nil => simp [insertKey]
  | cons d ds ih =>
      by_cases hc : keyLt c d
      · simp only [insertKey, if_pos hc, List.mem_cons]
      · simp only [insertKey, if_neg hc, List.mem_cons, ih]
        tauto

/-- The `sortKeys` permutes membership. -/
theorem mem_sortKeys (x : String) (l : List String) :
    x ∈ sortKeys l ↔ x ∈ l := by
  induction l with
  | nil => simp [sortKeys]
  | cons c cs ih => simp [sortKeys_cons, mem_insertKey, ih]

/-- The `insertKey` adds one element. -/
theorem length_insertKey (c : String) (l : List String) :
    (insertKey c l).length = l.length + 1 := by
  induction l with
  | nil => simp [insertKey]
  | cons d ds ih =>
      by_cases hc : keyLt c d
      · simp [insertKey, if_pos hc]
      · simp [insertKey, if_neg hc, ih]

/-- The `sortKeys` preserves length. -/
theorem length_sortKeys (l : List String) :
    (sortKeys l).length = l.length := by
  induction l with
  | nil => simp [sortKeys]
  | cons c cs ih => simp [sortKeys_cons, length_insertKey, ih]

/-- The `dedupFirst` preserves membership. -/
theorem mem_dedupFirst {α : Type} [DecidableEq α] (x : α) (l : List α) :
    x ∈ dedupFirst l ↔ x ∈ l := by
  induction l using dedupFirst.induct with
  | case1 => simp [dedupFirst]
  | case2 c cs ih =>
      rw [dedupFirst]
      by_cases hx : x = c
      · subst hx; simp
      · simp only [List.mem_cons, ih, List.mem_filter, bne_iff_ne, ne_eq]
        constructor
        · rintro (rfl | ⟨h, _⟩)
          · exact Or.inl rfl
          · exact Or.inr h
        · rintro (rfl | h)
          · exact Or.inl rfl
          · exact Or.inr ⟨h, hx⟩

/-- The `dedupFirst` of a non-empty list is non-empty. -/
theorem dedupFirst_ne_nil {α : Type} [DecidableEq α] (l : List α) (h : l ≠ []) :
    dedupFirst l ≠ [] := by
  cases l with
  | nil => exact absurd rfl h
  | cons c cs => rw [dedupFirst]; exact List.cons_ne_nil _ _

/-- The `idxmaxPair?` fails exactly on the empty series. -/
theorem idxmaxPair_eq_none (l : List ℚ) : idxmaxPair? l = none ↔ l = [] := by
  cases l with
  | nil => simp [idxmaxPair?]
  | cons x xs =>
      cases h : idxmaxPair? xs with
      | none => simp [idxmaxPair?, h]
      | some jm =>
          obtain ⟨j, m⟩ := jm
          simp only [idxmaxPair?, h]
          constructor
          · intro hc; split at hc <;> simp at hc
          · intro hc; exact absurd hc (List.cons_ne_nil x xs)

/-- Specification of `idxmaxPair?` on a non-empty series: it returns the
position of the first maximum together with its value. -/
theorem idxmaxPair_spec (l : List ℚ) (h : l ≠ []) :
    ∃ i m, idxmaxPair? l = some (i, m) ∧ i < l.length ∧ l.getD i 0 = m ∧
      (∀ j, j < l.length → l.getD j 0 ≤ m) ∧ (∀ j, j < i → l.getD j 0 < m) := by
  induction l with
  | nil => exact absurd rfl h
  | cons x xs ih =>
      cases hxs : idxmaxPair? xs with
      | none =>
          have hnil : xs = [] := (idxmaxPair_eq_none xs).mp hxs
          subst hnil
          refine ⟨0, x, by simp [idxmaxPair?], by simp, by simp, ?_, ?_⟩
          · intro j hj
            have hj0 : j = 0 := by simpa using Nat.lt_one_iff.mp (by simpa using hj)
            subst hj0; simp
          · intro j hj
            exact absurd hj (Nat.not_lt_zero j)
      | some jm =>
          obtain ⟨j, m⟩ := jm
          have hxs_ne : xs ≠ [] := by
            intro he
            rw [he] at hxs
            simp [idxmaxPair?] at hxs
          obtain ⟨j', m', hpair, hlt, hget, hmax, hfirst⟩ := ih hxs_ne
          rw [hxs] at hpair
          obtain ⟨hj', hm'⟩ : j = j' ∧ m = m' := by
            have h2 := Option.some.inj hpair
            exact ⟨congrArg Prod.fst h2, congrArg Prod.snd h2⟩
          subst hj'; subst hm'
          by_cases hc : x < m
          · refine ⟨j + 1, m, ?_, ?_, ?_, ?_, ?_⟩
            · simp [idxmaxPair?, hxs, if_pos hc]
            · simpa [List.length_cons] using Nat.succ_lt_succ hlt
            · simpa [List.getD_cons_succ] using hget
            · intro k hk
              cases k with
              | zero => simpa using le_of_lt hc
              | succ k' =>
                  simpa [List.getD_cons_succ] using
                    hmax k' (Nat.lt_of_succ_lt_succ (by simpa [List.length_cons] using hk))
            · intro k hk
              cases k with
              | zero => simpa using hc
              | succ k' =>
                  simpa [List.getD_cons_succ] using hfirst k' (Nat.lt_of_succ_lt_succ hk)
          · refine ⟨0, x, ?_, ?_, ?_, ?_, ?_⟩
            · simp [idxmaxPair?, hxs, if_neg hc]
            · simp
            · simp
            · intro k hk
              cases k with
              | zero => simp
              | succ k' =>
                  have h1 : xs.getD k' 0 ≤ m :=
                    hmax k' (Nat.lt_of_succ_lt_succ (by simpa [List.length_cons] using hk))
                  simpa [List.getD_cons_succ] using le_trans h1 (not_lt.mp hc)
            · intro k hk
              exact absurd hk (Nat.not_lt_zero k)

/-- The `idxmax` succeeds on any non-empty series. -/
theorem idxmax_isSome (l : List ℚ) (h : l ≠ []) : (idxmax l).isSome = true := by
  obtain ⟨i, m, hp, _⟩ := idxmaxPair_spec l h
  simp [idxmax, hp]

/-- Length of a pointwise sum. -/
theorem addVec_length (a b : List ℚ) : (addVec a b).length = min a.length b.length := by
  simp [addVec]

/-- Adding a vector to the zero vector of its own length is the identity. -/
theorem replicate_zero_addVec (l : List ℚ) : addVec (List.replicate l.length 0) l = l := by
  induction l with
  | nil => simp [addVec]
  | cons x xs ih =>
      simp only [addVec, List.length_cons, List.replicate_succ, List.zipWith_cons_cons,
        zero_add]
      simpa [addVec] using ih

/-- When every row has `n` age columns, the column-sum vector has length
`n`. -/
theorem ageTotals_length (n : Nat) (view : List SalesRecord)
    (h : ∀ r ∈ view, r.ages.length = n) : (ageTotals n view).length = n := by
  suffices H : ∀ (vs : List SalesRecord) (acc : List ℚ), acc.length = n →
      (∀ r ∈ vs, r.ages.length = n) →
      (List.foldl (fun acc r => addVec acc r.ages) acc vs).length = n by
    exact H view (List.replicate n 0) (by simp) h
  intro vs
  induction vs with
  | nil => intro acc ha _; simpa using ha
  | cons r rs ih =>
      intro acc ha hall
      simp only [List.foldl_cons]
      refine ih (addVec acc r.ages) ?_ (fun r' hr' => hall r' (List.mem_cons_of_mem r hr'))
      rw [addVec_length, ha, hall r (List.mem_cons_self r rs), min_self]

/-- The category ranking of a non-empty view is non-empty. -/
theorem industry_rank_ne_nil (view : List SalesRecord) (h : view ≠ []) :
    industry_rank view ≠ [] := by
  intro he
  have hlen : (industry_rank view).length = 0 := by rw [he]; rfl
  unfold industry_rank at hlen
  rw [length_sortDesc, List.length_map, length_sortKeys] at hlen
  exact dedupFirst_ne_nil _ (fun hm => h (List.map_eq_nil_iff.mp hm))
    (List.length_eq_zero.mp hlen)

/-- The `renderSelection` restated with a propositional emptiness test. -/
theorem renderSelection_eq (n : Nat) (rows : List SalesRecord) (dist : String)
    (q : Option Int) :
    renderSelection n rows dist q =
      if filterView rows dist q = [] then RenderResult.warning
      else
        match summarize n (filterView rows dist q) with
        | some s => RenderResult.summary s
        | none => RenderResult.failure := by
  unfold renderSelection
  cases hfv : filterView rows dist q with
  | nil => simp
  | cons a l => simp

/-- C1 (counterexample): the spec's example is false on the code.  The area
name "평창동" is not unmatched: the keyword "창동" (mapped to "도봉구")
occurs inside it as a substring, so `match_district` classifies it
"도봉구", not the sentinel "기타/미분류". -/
theorem pyeongchang_is_dobong :
    matchDistrictStr "평창동" = "도봉구" ∧
    isSubstr "창동" "평창동" = true ∧
    ("창동", "도봉구") ∈ KEYWORD_TO_DISTRICT ∧
    matchDistrictStr "평창동" ≠ "기타/미분류" := by
  refine ⟨by decide, by decide, by decide, by decide⟩

/-- C1 (amended): for every area-name string the classifier returns exactly
one label — the borough of the first keyword of the table (in its fixed
insertion order) occurring as a substring of the name, the sentinel
"기타/미분류" when no keyword matches.  An actually unmatched name such as
"개포동" gets the sentinel; "평창동" gets "도봉구" via the keyword
"창동". -/
theorem classify_first_match :
    (∀ name : String,
      (∀ p ∈ KEYWORD_TO_DISTRICT, isSubstr p.1 name = false) →
      matchDistrictStr name = SENTINEL) ∧
    (∀ (name : String) (l₁ l₂ : List (String × String)) (p : String × String),
      KEYWORD_TO_DISTRICT = l₁ ++ p :: l₂ →
      isSubstr p.1 name = true →
      (∀ q ∈ l₁, isSubstr q.1 name = false) →
      matchDistrictStr name = p.2) ∧
    matchDistrictStr "개포동" = SENTINEL ∧
    matchDistrictStr "평창동" = "도봉구" := by
  refine ⟨?_, ?_, by decide, by decide⟩
  · intro name h
    unfold matchDistrictStr
    have : KEYWORD_TO_DISTRICT.find? (fun p => isSubstr p.1 name) = none := by
      rw [List.find?_eq_none]
      intro x hx
      simp [h x hx]
    rw [this]
  · intro name l₁ l₂ p htab hp hl₁
    unfold matchDistrictStr
    rw [htab, find_append_first l₁ l₂ _ p hp (fun x hx => hl₁ x hx)]

/-- C1 (witness): the first-match rule applied at the concrete unmatched
name "개포동". -/
theorem classify_first_match_witness :
    matchDistrictStr "개포동" = SENTINEL :=
  classify_first_match.1 "개포동" (by decide)

/-- C8: "강남역 먹자골목" is classified "서초구": the first matching
keyword of the table is "강남역" (mapped to "서초구"), no bare "강남"
keyword exists in the table, and "압구정" does not occur in the name. -/
theorem gangnam_station_seocho :
    matchDistrictStr "강남역 먹자골목" = "서초구" ∧
    KEYWORD_TO_DISTRICT.find? (fun p => isSubstr p.1 "강남역 먹자골목") =
      some ("강남역", "서초구") ∧
    (∀ p ∈ KEYWORD_TO_DISTRICT, p.1 ≠ "강남") ∧
    isSubstr "압구정" "강남역 먹자골목" = false := by
  refine ⟨by decide, by decide, by decide, by decide⟩

/-- C10: classification is total at the public interface: the cell is
converted to its string form first, so every cell (strings, numbers,
missing values) receives either the borough of some table keyword or the
sentinel, and the label is never blank. -/
theorem classify_total_over_cells :
    ∀ c : Cell,
      (match_district c ∈ KEYWORD_TO_DISTRICT.map Prod.snd ∨
        match_district c = SENTINEL) ∧
      match_district c ≠ "" := by
  intro c
  unfold match_district matchDistrictStr
  cases hf : KEYWORD_TO_DISTRICT.find? (fun p => isSubstr p.1 (cellStr c)) with
  | none => exact ⟨Or.inr rfl, by decide⟩
  | some p =>
      have hmem : p ∈ KEYWORD_TO_DISTRICT := List.mem_of_find?_eq_some hf
      have hne : ∀ q ∈ KEYWORD_TO_DISTRICT, q.2 ≠ "" := by decide
      exact ⟨Or.inl (List.mem_map_of_mem Prod.snd hmem), hne p hmem⟩

/-- Sample record for the C2 scenario: category "A", mean 100. -/
def scenarioRowA : SalesRecord := ⟨Cell.str "압구정로데오", 20231, "A", 100, 1, [1, 3], 5, 7⟩

/-- Sample record for the C2 scenario: category "B", mean 200. -/
def scenarioRowB : SalesRecord := ⟨Cell.str "압구정로데오", 20231, "B", 200, 1, [2, 2], 6, 8⟩

/-- C2: for every non-empty view the category ranking is descending in the
group means, each entry carries exactly its category's mean monthly sales
amount, the ranked categories are exactly the view's categories, and the
first entry's mean is maximal. -/
theorem industry_rank_spec (view : List SalesRecord) (h : view ≠ []) :
    List.Pairwise (fun a b => b.2 ≤ a.2) (industry_rank view) ∧
    (∀ pr ∈ industry_rank view,
      pr.2 = groupMean view pr.1 ∧ pr.1 ∈ view.map (fun r => r.category)) ∧
    (∀ c ∈ view.map (fun r => r.category),
      (c, groupMean view c) ∈ industry_rank view) ∧
    (industry_rank view).head?.isSome = true ∧
    (∀ pr ∈ industry_rank view,
      pr.2 ≤ ((industry_rank view).head?.getD ("", 0)).2) := by
  refine ⟨sorted_sortDesc _, ?_, ?_, ?_⟩
  · intro pr hpr
    have hpr' : pr ∈ (sortKeys (dedupFirst (view.map (fun r => r.category)))).map
        (fun c => (c, groupMean view c)) := (mem_sortDesc _ _).mp hpr
    obtain ⟨c, hc, rfl⟩ := List.mem_map.mp hpr'
    exact ⟨rfl, (mem_dedupFirst _ _).mp ((mem_sortKeys _ _).mp hc)⟩
  · intro c hc
    exact (mem_sortDesc _ _).mpr
      (List.mem_map_of_mem _ ((mem_sortKeys _ _).mpr ((mem_dedupFirst _ _).mpr hc)))
  · have hnn := industry_rank_ne_nil view h
    have hsorted : List.Pairwise (fun a b => b.2 ≤ a.2) (industry_rank view) :=
      sorted_sortDesc _
    cases hrank : industry_rank view with
    | nil => exact absurd hrank hnn
    | cons top rest =>
        rw [hrank] at hsorted
        refine ⟨by simp, ?_⟩
        intro pr hpr
        simp only [List.head?_cons, Option.getD_some]
        rcases List.mem_cons.mp hpr with rfl | hpr'
        · exact le_refl _
        · exact (List.pairwise_cons.mp hsorted).1 pr hpr'

/-- C2 (witness): the two-row scenario — category "A" with mean 100 and
"B" with mean 200 rank as [("B", 200), ("A", 100)], and the ranking is
descending. -/
theorem industry_rank_spec_witness :
    industry_rank [scenarioRowA, scenarioRowB] = [("B", 200), ("A", 100)] ∧
    List.Pairwise (fun a b => b.2 ≤ a.2) (industry_rank [scenarioRowA, scenarioRowB]) :=
  ⟨by with_unfolding_all rfl,
   (industry_rank_spec [scenarioRowA, scenarioRowB] (List.cons_ne_nil _ _)).1⟩

/-- C3: on a non-empty view whose rows all carry `n > 0` age columns, the
dominant age bracket (`idxmax` of the column sums) exists, its index is in
range, its column sum is maximal, and every earlier column has a strictly
smaller sum (first max wins on ties). -/
theorem dominant_age_first_max (n : Nat) (view : List SalesRecord)
    (_hv : view ≠ []) (hn : 0 < n) (hlen : ∀ r ∈ view, r.ages.length = n) :
    (mainAgeIdx n view).isSome = true ∧
    (mainAgeIdx n view).getD 0 < n ∧
    (∀ j, j < n →
      (ageTotals n view).getD j 0 ≤
        (ageTotals n view).getD ((mainAgeIdx n view).getD 0) 0) ∧
    (∀ j, j < (mainAgeIdx n view).getD 0 →
      (ageTotals n view).getD j 0 <
        (ageTotals n view).getD ((mainAgeIdx n view).getD 0) 0) := by
  have hlength : (ageTotals n view).length = n := ageTotals_length n view hlen
  have hne : ageTotals n view ≠ [] := by
    intro he
    rw [he] at hlength
    simp at hlength
    omega
  obtain ⟨i, m, hp, hi, hget, hmax, hfirst⟩ := idxmaxPair_spec _ hne
  have hmain : mainAgeIdx n view = some i := by simp [mainAgeIdx, idxmax, hp]
  rw [hmain]
  simp only [Option.isSome_some, Option.getD_some]
  refine ⟨trivial, by rwa [hlength] at hi, ?_, ?_⟩
  · intro j hj
    rw [hget]
    exact hmax j (by rwa [hlength])
  · intro j hj
    rw [hget]
    exact hfirst j hj

/-- Sample record for the C3 witness: age columns summing to [1, 3]. -/
def ageWitnessRow : SalesRecord := ⟨Cell.str "개포동", 20231, "카페", 10, 1, [1, 3], 2, 2⟩

/-- C3 (witness): the dominant-age-bracket theorem applied to a concrete
one-row view with two age columns. -/
theorem dominant_age_first_max_witness :
    (mainAgeIdx 2 [ageWitnessRow]).isSome = true ∧
    (mainAgeIdx 2 [ageWitnessRow]).getD 0 < 2 :=
  ⟨(dominant_age_first_max 2 [ageWitnessRow] (List.cons_ne_nil _ _) (by decide)
      (by with_unfolding_all decide)).1,
   (dominant_age_first_max 2 [ageWitnessRow] (List.cons_ne_nil _ _) (by decide)
      (by with_unfolding_all decide)).2.1⟩

/-- C4: with `n > 0` age columns on every row, rendering a selection warns
exactly when the filtered view is empty, and the aggregation block's
failure branches are unreachable. -/
theorem summarize_total_on_nonempty (n : Nat) (rows : List SalesRecord)
    (dist : String) (q : Option Int) (hn : 0 < n)
    (hlen : ∀ r ∈ rows, r.ages.length = n) :
    (renderSelection n rows dist q = RenderResult.warning ↔
      filterView rows dist q = []) ∧
    renderSelection n rows dist q ≠ RenderResult.failure := by
  rw [renderSelection_eq]
  by_cases hv : filterView rows dist q = []
  · rw [if_pos hv]
    exact ⟨⟨fun _ => hv, fun _ => rfl⟩, by simp⟩
  · rw [if_neg hv]
    have hview_len : ∀ r ∈ filterView rows dist q, r.ages.length = n :=
      fun r hr => hlen r (List.mem_of_mem_filter hr)
    have hlength : (ageTotals n (filterView rows dist q)).length = n :=
      ageTotals_length n _ hview_len
    have hne : ageTotals n (filterView rows dist q) ≠ [] := by
      intro he
      rw [he] at hlength
      simp at hlength
      omega
    have hA : (mainAgeIdx n (filterView rows dist q)).isSome = true :=
      idxmax_isSome _ hne
    have hB : (industry_rank (filterView rows dist q)).head?.isSome = true := by
      have hnn := industry_rank_ne_nil _ hv
      cases hR : industry_rank (filterView rows dist q) with
      | nil => exact absurd hR hnn
      | cons a l => simp
    obtain ⟨i, hi⟩ := Option.isSome_iff_exists.mp hA
    obtain ⟨top, htop⟩ := Option.isSome_iff_exists.mp hB
    have hsumm : summarize n (filterView rows dist q) =
        some ⟨totalSales (filterView rows dist q), i, top,
          industry_rank (filterView rows dist q),
          maleTotal (filterView rows dist q),
          femaleTotal (filterView rows dist q)⟩ := by
      simp [summarize, hi, htop]
    rw [hsumm]
    exact ⟨⟨fun hw => by simp at hw, fun hw => absurd hw hv⟩, by simp⟩

/-- Sample record for the C4 witness ("역삼동" classifies to "강남구"). -/
def guardRow : SalesRecord := ⟨Cell.str "역삼동", 20232, "치킨전문점", 50, 2, [7], 1, 1⟩

/-- C4 (witness): the guard theorem applied to a concrete one-row table
with a selection that matches the row. -/
theorem summarize_total_on_nonempty_witness :
    renderSelection 1 [guardRow] "강남구" none ≠ RenderResult.failure :=
  (summarize_total_on_nonempty 1 [guardRow] "강남구" none (by decide)
    (by with_unfolding_all decide)).2

/-- C9: a single-row view yields the singleton ranking carrying that row's
category and its monthly amount (a one-row mean), the dominant age bracket
computed from the row's own age vector, and gender totals equal to the
row's two gender fields. -/
theorem single_row_view (r : SalesRecord) :
    industry_rank [r] = [(r.category, r.monthlyAmount)] ∧
    mainAgeIdx r.ages.length [r] = idxmax r.ages ∧
    maleTotal [r] = r.maleAmount ∧
    femaleTotal [r] = r.femaleAmount := by
  refine ⟨?_, ?_, by simp [maleTotal], by simp [femaleTotal]⟩
  · have hg : groupMean [r] r.category = r.monthlyAmount := by
      simp [groupMean, groupRows, List.filter]
    simp [industry_rank, dedupFirst, sortKeys, insertKey, sortDesc, insertDesc, hg]
  · have ht : ageTotals r.ages.length [r] = r.ages := by
      simp [ageTotals, replicate_zero_addVec]
    simp [mainAgeIdx, ht]



/-- C5: when the source file is missing, the error indicator is shown, the
loaded table is empty (no crash), and every downstream display — filters,
metrics, charts — is skipped. -/
theorem missing_file_flow (csv : List RawRecord) (n : Nat) (dist : String)
    (q : Option Int) :
    appView false csv n dist q = (true, none) ∧
    (load_data false csv).2 = [] ∧
    (load_data false csv).1 = true := by
  refine ⟨?_, rfl, rfl⟩
  simp [appView, load_data]

/-- C6: the coercion pass keeps every row; within a row, exactly the cells
under a column whose name matches the sales-amount/sales-count pattern are
replaced by their numeric coercion while all other cells are untouched;
and an unparsable cell coerces to zero. -/
theorem numeric_coercion :
    (∀ (colNames : List String) (rows : List (List Cell)),
      (processTable colNames rows).length = rows.length) ∧
    (∀ (colNames : List String) (cells : List Cell) (j : Nat),
      j < colNames.length → j < cells.length →
      (processRow colNames cells).getD j Cell.nan =
        (if isNumericCol (colNames.getD j "") = true then
          Cell.num (coerceNum (cells.getD j Cell.nan))
        else cells.getD j Cell.nan)) ∧
    (∀ c : Cell, parseNum c = none → coerceNum c = 0) := by
  refine ⟨?_, ?_, ?_⟩
  · intro colNames rows
    simp [processTable]
  · intro colNames cells j hj1 hj2
    have hjz : j < (processRow colNames cells).length := by
      simp only [processRow, List.length_zipWith, lt_min_iff]
      exact ⟨hj1, hj2⟩
    rw [List.getD_eq_getElem _ _ hjz, List.getD_eq_getElem _ _ hj1,
      List.getD_eq_getElem _ _ hj2]
    simp [processRow, List.getElem_zipWith]
  · intro c h
    simp [coerceNum, h]

/-- C6 (witness): the per-cell rule applied at a concrete row: the
sales-amount column holds an unparsable string, which coerces to zero. -/
theorem numeric_coercion_witness :
    (processRow ["당월_매출_금액", "상권_코드_명"]
      [Cell.str "값없음", Cell.str "강남"]).getD 0 Cell.nan = Cell.num 0 := by
  have h := numeric_coercion.2.1 ["당월_매출_금액", "상권_코드_명"]
    [Cell.str "값없음", Cell.str "강남"] 0 (by decide) (by decide)
  rw [h]
  with_unfolding_all decide

/-- Row for C7 whose area name matches no keyword. -/
def gaepoRow : SalesRecord :=
  ⟨Cell.str "개포동 전통시장", 20231, "한식음식점", 100, 1, [1, 2], 3, 4⟩

/-- Row for C7 whose area name matches the keyword "압구정" ("강남구"). -/
def apgujeongRow : SalesRecord :=
  ⟨Cell.str "압구정로데오", 20231, "한식음식점", 100, 1, [1, 2], 3, 4⟩

/-- Concrete loaded table for C7: one sentinel row, one 강남구 row. -/
def sentinelTable : List SalesRecord := [gaepoRow, apgujeongRow]

/-- C7 (counterexample): a sentinel-labelled row contributes to no reachable
aggregation query.  In this concrete table the unmatched row is labelled
with the sentinel, the borough selector offers only "강남구" (the sentinel
label is filtered out of the options on source line 75), the quarter
selector offers "전체" and 20231, and the sentinel row is excluded from the
filtered view of every one of those selections. -/
theorem sentinel_rows_unreachable_cex :
    district gaepoRow = SENTINEL ∧
    districtsList sentinelTable = ["강남구"] ∧
    quarterOptions sentinelTable = [none, some 20231] ∧
    gaepoRow ∉ filterView sentinelTable "강남구" none ∧
    gaepoRow ∉ filterView sentinelTable "강남구" (some 20231) := by
  refine ⟨by with_unfolding_all decide, by with_unfolding_all rfl,
    by with_unfolding_all rfl, by with_unfolding_all decide,
    by with_unfolding_all decide⟩

/-- C7 (amended): every unmatched row is silently labelled with the
sentinel and kept in the loaded table, but because the sentinel label is
removed from the borough selector, no reachable borough/quarter selection's
filtered view — hence no aggregate total — ever contains such a row. -/
theorem sentinel_rows_excluded (rows : List SalesRecord) (d : String)
    (q : Option Int) (r : SalesRecord) (hd : d ∈ districtsList rows)
    (hr : r ∈ filterView rows d q) :
    district r ≠ SENTINEL := by
  have hd1 : d ∈ (dedupFirst (rows.map district)).filter (fun x => x != SENTINEL) :=
    (mem_sortKeys _ _).mp hd
  have hdne : d ≠ SENTINEL := by simpa using (List.mem_filter.mp hd1).2
  have hr1 := (List.mem_filter.mp hr).2
  simp only [Bool.and_eq_true, beq_iff_eq] at hr1
  rw [hr1.1]
  exact hdne

/-- C7 (witness): the exclusion theorem applied at the concrete table: the
"압구정로데오" row reached through the "강남구" selection is not
sentinel-labelled. -/
theorem sentinel_rows_excluded_witness :
    district apgujeongRow ≠ SENTINEL :=
  sentinel_rows_excluded sentinelTable "강남구" none apgujeongRow
    (by
      have he : districtsList sentinelTable = ["강남구"] := by with_unfolding_all rfl
      rw [he]
      exact List.mem_singleton.mpr rfl)
    (by
      have he : filterView sentinelTable "강남구" none = [apgujeongRow] := by
        with_unfolding_all rfl
      rw [he]
      exact List.mem_singleton.mpr rfl)

end SeoulDash
